import Mathlib

/-!
Verification of the notebook document model core (`packages/commutable`):
the media-bundle codec of `primitives.ts` (`demultiline`, `remultiline`,
`isJSONKey`, `deepFreeze`, `createFrozenMediaBundle`, `createOnDiskMediaBundle`)
and the v4 notebook converter (`fromJS`, `toJS`, `cellToJS`, `outputToJS`).

The codec is embedded directly from `primitives.ts`.  The v4 converter's
implementation file is not part of the sources (only its test suite is), so
those functions are modelled from the specification, with each such definition
marked `Modelled from the spec:`.

JavaScript semantics that matter here and are embedded faithfully:
* `String.prototype.split` with a regexp separator splices the values of the
  regexp's capturing groups into the result array, one entry per group per
  match (ECMAScript `RegExp.prototype[Symbol.split]`).
* In a regexp without the `s` flag, `.` matches any character except the line
  terminators `\n`, `\r`, U+2028 and U+2029.
* The separator used by `remultiline` is `(.+(:\r\n|\n))` (the literal source
  text of the regex, including the stray `:`), with greedy `.+` and leftmost
  matching.
-/

/-- The `.` class of a JavaScript regexp without the `s` flag: any character except the
ECMAScript line terminators. -/
def isDotChar (c : Char) : Bool :=
  c != '\n' && c != '\r' && c != '\u2028' && c != '\u2029'

/-- The split loop of `remultiline`'s `s.split(/(.+(:\r\n|\n))/g)`.

`gapRev` is the text (reversed) accumulated since the end of the previous
match, `runRev` is the current run of `.`-chars (reversed).  A match of the
separator is a nonempty run of `.`-chars followed either by `\n` (the whole
run is consumed by the greedy `.+`) or by `:\r\n` (the run's final `:` is
consumed by the second group).  For each match, `split` contributes the text
before the match, the value of group 1 (the whole match) and the value of
group 2 (`\n` or `:\r\n`); the trailing text follows at the end. -/
def splitRML (gapRev runRev : List Char) : List Char → List (List Char)
  | [] => [(runRev ++ gapRev).reverse]
  | '\r' :: '\n' :: rest2 =>
    if 2 ≤ runRev.length ∧ runRev.head? = some ':' then
      gapRev.reverse :: (runRev.reverse ++ ['\r', '\n']) :: [':', '\r', '\n'] ::
        splitRML [] [] rest2
    else
      splitRML ('\n' :: '\r' :: (runRev ++ gapRev)) [] rest2
  | c :: rest =>
    if isDotChar c then
      splitRML gapRev (c :: runRev) rest
    else if c = '\n' then
      if runRev = [] then
        splitRML ('\n' :: gapRev) [] rest
      else
        gapRev.reverse :: (runRev.reverse ++ ['\n']) :: ['\n'] :: splitRML [] [] rest
    else
      splitRML (c :: (runRev ++ gapRev)) [] rest

/-- Computes `s.split(/(.+(:\r\n|\n))/g).filter(x => x !== "")` on a string. -/
def remultilineStr (s : String) : List String :=
  ((splitRML [] [] s.data).map fun l => String.mk l).filter fun x => x ≠ ""

/-- The TypeScript type `MultiLineString = string | string[]`. -/
inductive MultiLineString where
  | mstr : String → MultiLineString
  | marr : List String → MultiLineString
deriving DecidableEq

/-- The function `demultiline`: an array is joined with `""`; a string is returned as is. -/
def demultiline : MultiLineString → String
  | .marr l => String.join l
  | .mstr s => s

/-- The function `remultiline`: an array is returned as is; a string is split by
`s.split(/(.+(:\r\n|\n))/g).filter(x => x !== "")`. -/
def remultiline : MultiLineString → List String
  | .marr l => l
  | .mstr s => remultilineStr s


/-- Runtime JavaScript values as they occur in media bundles: primitives,
arrays and plain objects.  Arrays and objects carry their frozen bit
(`Object.isFrozen`), so that `Object.freeze` — which is the only mutation the
embedded code performs — can be modelled by value. -/
inductive JSValue where
  | str : String → JSValue
  | num : Int → JSValue
  | bool : Bool → JSValue
  | null : JSValue
  | arr : Bool → List JSValue → JSValue
  | obj : Bool → List (String × JSValue) → JSValue

/-- Tests `typeof v === "string"`. -/
def JSValue.isString : JSValue → Bool
  | .str _ => true
  | _ => false

/-- Tests `Array.isArray(v)`. -/
def JSValue.isArray : JSValue → Bool
  | .arr _ _ => true
  | _ => false

/-- Tests `value && typeof value === "object"`: true for arrays and plain objects,
false for strings, numbers, booleans and (because of the truthiness guard)
`null`. -/
def JSValue.isObjectLike : JSValue → Bool
  | .arr _ _ => true
  | .obj _ _ => true
  | _ => false

/-- The own enumerable string-keyed properties of an object (`for..in`). -/
def JSValue.entries : JSValue → List (String × JSValue)
  | .obj _ fs => fs
  | _ => []

/-- Reads `Object.isFrozen` at the top level.  Primitives are immutable. -/
def JSValue.topFrozen : JSValue → Bool
  | .arr f _ => f
  | .obj f _ => f
  | _ => true

/-- Element conversion of `Array.prototype.join`.  Both bundle value types
declare their arrays as `string[]`, so every element reaching a join is a
string; other shapes never occur and are given a fixed fallback. -/
def JSValue.coerceStr : JSValue → String
  | .str s => s
  | _ => ""

/-- The `as MultiLineString` cast applied to a bundle value after the
`typeof mediaBundle[key] === "string" || Array.isArray(mediaBundle[key])`
guard. -/
def asMultiLineString : JSValue → MultiLineString
  | .str s => .mstr s
  | .arr _ l => .marr (l.map JSValue.coerceStr)
  | _ => .mstr ""

/-- The suffix part `(.*\+)json$` of the `isJSONKey` regex, applied to what
follows the literal prefix: either match `+json` at the very end of the input
here, or let the greedy `.*` consume one more `.`-char and continue. -/
def matchPlusJson : List Char → Bool
  | [] => false
  | c :: cs => (c == '+' && cs == ['j', 's', 'o', 'n']) || (isDotChar c && matchPlusJson cs)

/-- The function `isJSONKey`: `/^application\/(.*\+)json$/.test(key)`. -/
def isJSONKey (key : String) : Bool :=
  "application/".data.isPrefixOf key.data && matchPlusJson (key.data.drop 12)


/-- The mimetypes enumerated in the `OnDiskMediaBundle` / `MediaBundle`
interfaces; every other key is an "unknown mimetype" reaching the index
signature. -/
def knownMediaTypes : List String :=
  ["text/plain", "text/html", "text/latex", "text/markdown",
   "application/javascript", "image/png", "image/jpeg", "image/gif",
   "image/svg+xml", "application/json", "application/vdom.v1+json",
   "application/vnd.dataresource+json", "text/vnd.plotly.v1+html",
   "application/vnd.plotly.v1+json", "application/geo+json",
   "application/x-nteract-model-debug+json", "application/vnd.vega.v2+json",
   "application/vnd.vega.v3+json", "application/vnd.vegalite.v1+json",
   "application/vnd.vegalite.v2+json"]

mutual

/-- The function `deepFreeze`: recursively freeze every own property whose value is a
truthy object, then `Object.freeze` the value itself.  On primitives
`Object.freeze` is the identity. -/
def deepFreeze : JSValue → JSValue
  | .str s => .str s
  | .num n => .num n
  | .bool b => .bool b
  | .null => .null
  | .arr _ l => .arr true (deepFreezeList l)
  | .obj _ fs => .obj true (deepFreezeFields fs)

/-- The property loop of `deepFreeze` over an array's elements. -/
def deepFreezeList : List JSValue → List JSValue
  | [] => []
  | v :: vs => (if v.isObjectLike then deepFreeze v else v) :: deepFreezeList vs

/-- The property loop of `deepFreeze` over an object's fields. -/
def deepFreezeFields : List (String × JSValue) → List (String × JSValue)
  | [] => []
  | kv :: kvs => (kv.1, if kv.2.isObjectLike then deepFreeze kv.2 else kv.2) :: deepFreezeFields kvs

end

mutual

/-- A value is deeply frozen: every array or object in it, at every depth,
has its frozen bit set. -/
def deeplyFrozen : JSValue → Bool
  | .arr f l => f && deeplyFrozenList l
  | .obj f fs => f && deeplyFrozenFields fs
  | _ => true

def deeplyFrozenList : List JSValue → Bool
  | [] => true
  | v :: vs => deeplyFrozen v && deeplyFrozenList vs

def deeplyFrozenFields : List (String × JSValue) → Bool
  | [] => true
  | kv :: kvs => deeplyFrozen kv.2 && deeplyFrozenFields kvs

end

mutual

/-- The content of a value with all frozen bits cleared: freezing changes a
value's frozen state, never its content. -/
def contentOf : JSValue → JSValue
  | .str s => .str s
  | .num n => .num n
  | .bool b => .bool b
  | .null => .null
  | .arr _ l => .arr false (contentOfList l)
  | .obj _ fs => .obj false (contentOfFields fs)

def contentOfList : List JSValue → List JSValue
  | [] => []
  | v :: vs => contentOf v :: contentOfList vs

def contentOfFields : List (String × JSValue) → List (String × JSValue)
  | [] => []
  | kv :: kvs => (kv.1, contentOf kv.2) :: contentOfFields kvs

end

/-- The loop body of `createFrozenMediaBundle`: a key that is not a JSON key
and whose value is a string or an array gets `demultiline(value)`; every
other entry gets `deepFreeze(value)`. -/
def frozenEntryValue (key : String) (v : JSValue) : JSValue :=
  if !isJSONKey key && (v.isString || v.isArray) then
    .str (demultiline (asMultiLineString v))
  else
    deepFreeze v

/-- The function `createFrozenMediaBundle`: map the loop body over all entries and
`Object.freeze` the resulting bundle object. -/
def createFrozenMediaBundle (mediaBundle : List (String × JSValue)) : JSValue :=
  .obj true (mediaBundle.map fun kv => (kv.1, frozenEntryValue kv.1 kv.2))

/-- Computes `remultiline(value as MultiLineString)` at the value level: `remultiline`
returns an array argument itself (keeping its frozen state), and builds a
fresh unfrozen array from a string argument. -/
def remultilineValue : JSValue → JSValue
  | .arr f l => .arr f l
  | v => .arr false ((remultiline (asMultiLineString v)).map JSValue.str)

/-- The loop body of `createOnDiskMediaBundle`: a key that is not a JSON key
and whose value is a string or an array gets `remultiline(value)`; every
other entry is copied as is. -/
def onDiskEntryValue (key : String) (v : JSValue) : JSValue :=
  if !isJSONKey key && (v.isString || v.isArray) then remultilineValue v
  else v

/-- The function `createOnDiskMediaBundle`: map the loop body over all entries into a
fresh (unfrozen) bundle object. -/
def createOnDiskMediaBundle (mediaBundle : List (String × JSValue)) : JSValue :=
  .obj false (mediaBundle.map fun kv => (kv.1, onDiskEntryValue kv.1 kv.2))


/-! ### The v4 notebook converter

`v4.ts` (`fromJS`, `toJS`, `cellToJS`, `outputToJS`) is absent from the
sources — only its test suite is present.  The definitions below are marked
`Modelled from the spec:` accordingly; they use the real embedded media-bundle
codec above wherever the spec routes data through it. -/

/-- Opaque unique string identifying a cell. -/
abbrev CellId := String

/-- Modelled from the spec: the in-memory output variants `execute_result`,
`display_data`, `stream` (`name` and raw `text`) and `error`.  Media bundles
are the in-memory bundle objects. -/
inductive ImmutableOutput where
  | executeResult (executionCount : Option Int) (data : List (String × JSValue))
      (metadata : JSValue)
  | displayData (data : List (String × JSValue)) (metadata : JSValue)
  | stream (name : String) (text : String)
  | error (ename : String) (evalue : String) (traceback : List String)

/-- Modelled from the spec: the on-disk output objects. -/
inductive OnDiskOutput where
  | executeResult (execution_count : Option Int) (data : JSValue) (metadata : JSValue)
  | displayData (data : JSValue) (metadata : JSValue)
  | stream (name : String) (text : String)
  | error (ename : String) (evalue : String) (traceback : List String)

/-- The `text` field of a stream output, if the output is a stream. -/
def ImmutableOutput.streamText : ImmutableOutput → Option String
  | .stream _ t => some t
  | _ => none

/-- The `text` field of an on-disk stream output, if the output is a stream. -/
def OnDiskOutput.streamText : OnDiskOutput → Option String
  | .stream _ t => some t
  | _ => none

/-- Modelled from the spec: `outputToJS` dispatches on the variant tag;
display-media bundles go disk-ward through the media codec, while stream
output text is copied byte-for-byte, bypassing the multiline transform. -/
def outputToJS : ImmutableOutput → OnDiskOutput
  | .executeResult ec data md => .executeResult ec (createOnDiskMediaBundle data) md
  | .displayData data md => .displayData (createOnDiskMediaBundle data) md
  | .stream name text => .stream name text
  | .error en ev tb => .error en ev tb

/-- Modelled from the spec: the read-path counterpart of `outputToJS`;
display-media bundles go through the in-memory codec. -/
def outputFromJS : OnDiskOutput → ImmutableOutput
  | .executeResult ec data md => .executeResult ec (createFrozenMediaBundle data.entries).entries md
  | .displayData data md => .displayData (createFrozenMediaBundle data.entries).entries md
  | .stream name text => .stream name text
  | .error en ev tb => .error en ev tb

/-- Modelled from the spec: an in-memory cell record.  The `cell_type` tag is
kept as a string so that conversion can dispatch on it and reject tags outside
the closed set, as the tests require.  `attachments` maps a filename to an
in-memory media-bundle object. -/
structure ImmutableCell where
  cellType : String
  id : Option CellId
  source : String
  metadata : JSValue
  executionCount : Option Int
  outputs : List ImmutableOutput
  attachments : Option (List (String × JSValue))

/-- Modelled from the spec: an on-disk cell object.  An `Option` field with
value `none` models the absence of the property on the emitted object. -/
structure OnDiskCell where
  cell_type : String
  id : Option CellId
  source : MultiLineString
  metadata : JSValue
  execution_count : Option (Option Int)
  outputs : Option (List OnDiskOutput)
  attachments : Option (List (String × JSValue))

/-- Modelled from the spec: `cellToJS` dispatches on the `cell_type` tag,
emitting the fields of that variant (markdown attachments go disk-ward
through the media codec), and fails for any other tag with the
"Cell type unknown at runtime" error observed by the test suite.  The `id`
field is never set here: the version gate of `toJS` adds it. -/
def cellToJS (cell : ImmutableCell) : Except String OnDiskCell :=
  if cell.cellType = "code" then
    .ok { cell_type := "code", id := none, source := .mstr cell.source,
          metadata := cell.metadata, execution_count := some cell.executionCount,
          outputs := some (cell.outputs.map outputToJS), attachments := none }
  else if cell.cellType = "markdown" then
    .ok { cell_type := "markdown", id := none, source := .mstr cell.source,
          metadata := cell.metadata, execution_count := none, outputs := none,
          attachments := cell.attachments.map fun l =>
            l.map fun fb => (fb.1, createOnDiskMediaBundle fb.2.entries) }
  else if cell.cellType = "raw" then
    .ok { cell_type := "raw", id := none, source := .mstr cell.source,
          metadata := cell.metadata, execution_count := none, outputs := none,
          attachments := none }
  else
    .error "Cell type unknown at runtime"

/-- Modelled from the spec: parsing one on-disk cell (everything except the
identifier rule, which `fromJS` applies).  On-disk multiline source is
flattened; markdown attachments go through the in-memory media codec. -/
def cellFromJS (c : OnDiskCell) : ImmutableCell :=
  { cellType := c.cell_type, id := c.id, source := demultiline c.source,
    metadata := c.metadata,
    executionCount := (c.execution_count).getD none,
    outputs := ((c.outputs).getD []).map outputFromJS,
    attachments := c.attachments.map fun l =>
      l.map fun fb => (fb.1, createFrozenMediaBundle fb.2.entries) }

/-- Modelled from the spec: the on-disk notebook object of format v4. -/
structure OnDiskNotebookV4 where
  nbformat : Nat
  nbformat_minor : Nat
  metadata : JSValue
  cells : List OnDiskCell

/-- Modelled from the spec: the in-memory notebook: `cellOrder` and
`cellMap` (kept as an association list in insertion order), top-level
metadata and the version pair. -/
structure Notebook where
  cellOrder : List CellId
  cellMap : List (CellId × ImmutableCell)
  metadata : JSValue
  nbformat : Nat
  nbformat_minor : Nat

/-- Modelled from the spec: the read-path identifier rule — reuse the on-disk
id exactly when `nbformat_minor >= 5` and the cell carries one; otherwise use
the freshly generated id. -/
def chooseCellId (minor : Nat) (onDiskId : Option CellId) (fresh : CellId) : CellId :=
  match onDiskId with
  | some i => if 5 ≤ minor then i else fresh
  | none => fresh

/-- Modelled from the spec: walk the on-disk cells in file order, pairing the
id chosen by the identifier rule with the parsed cell.  `gen i` stands for
the `i`-th value produced by the injected identifier generator. -/
def buildCells (gen : Nat → CellId) (minor : Nat) : Nat → List OnDiskCell →
    List (CellId × ImmutableCell)
  | _, [] => []
  | i, c :: cs =>
    (chooseCellId minor c.id (gen i), cellFromJS c) :: buildCells gen minor (i + 1) cs

/-- Modelled from the spec: `fromJS` (read).  Builds `cellOrder` and
`cellMap` together from the on-disk cells and carries metadata and the
version pair through unchanged. -/
def fromJS (gen : Nat → CellId) (nb : OnDiskNotebookV4) : Notebook :=
  let cells := buildCells gen nb.nbformat_minor 0 nb.cells
  { cellOrder := cells.map fun kc => kc.1, cellMap := cells,
    metadata := nb.metadata, nbformat := nb.nbformat,
    nbformat_minor := nb.nbformat_minor }

/-- Modelled from the spec: the write-path version gate
`(nbformat, nbformat_minor) >= (4, 5)`, compared lexicographically. -/
def idVersionGate (major minor : Nat) : Bool :=
  (4 < major) || (major == 4 && 5 ≤ minor)

/-- Association-list lookup, first match wins (as for unique JS object keys). -/
def lookupCell (m : List (CellId × ImmutableCell)) (k : CellId) : Option ImmutableCell :=
  match m with
  | [] => none
  | kc :: rest => if kc.1 = k then some kc.2 else lookupCell rest k

/-- Modelled from the spec: the cell loop of `toJS` (write).  Each id of
`cellOrder` is looked up in `cellMap` (the spec's invariant makes the lookup
total; a violation is a conversion failure), the cell is converted, and the
version gate decides whether the emitted object carries the `id` field —
taken from `cellOrder`, regardless of the in-memory cell's own `id`. -/
def emitCells (nb : Notebook) : List CellId → Except String (List OnDiskCell)
  | [] => .ok []
  | cid :: rest =>
    match lookupCell nb.cellMap cid with
    | none => .error "Cell not found in cellMap"
    | some cell =>
      match cellToJS cell with
      | .error e => .error e
      | .ok c =>
        match emitCells nb rest with
        | .error e => .error e
        | .ok cs =>
          .ok ((if idVersionGate nb.nbformat nb.nbformat_minor then
                  { c with id := some cid } else c) :: cs)

/-- Modelled from the spec: `toJS` (write). -/
def toJS (nb : Notebook) : Except String OnDiskNotebookV4 :=
  match emitCells nb nb.cellOrder with
  | .error e => .error e
  | .ok cells =>
    .ok { nbformat := nb.nbformat, nbformat_minor := nb.nbformat_minor,
          metadata := nb.metadata, cells := cells }

/-! ### Concrete fixtures (used by witnesses and counterexamples) -/

/-- A deterministic stand-in for the injected identifier generator, as the
test suite stubs it. -/
def sampleGen : Nat → CellId := fun _ => "one-two-three"

/-- An on-disk code cell carrying an id, as in the cell-id tests. -/
def sampleOnDiskCell : OnDiskCell :=
  { cell_type := "code", id := some "test-cell-id", source := .mstr "",
    metadata := .null, execution_count := some none, outputs := some [],
    attachments := none }

/-- An on-disk v4.5 notebook with one cell carrying an id. -/
def sampleNotebook45 : OnDiskNotebookV4 :=
  { nbformat := 4, nbformat_minor := 5, metadata := .null,
    cells := [sampleOnDiskCell] }

/-- An in-memory code cell that carries its own id field. -/
def sampleCell : ImmutableCell :=
  { cellType := "code", id := some "this-cell-id", source := "", metadata := .null,
    executionCount := none, outputs := [], attachments := none }

/-- An in-memory notebook at version (4, 4), below the id gate. -/
def sampleNotebook44 : Notebook :=
  { cellOrder := ["one-two-three"], cellMap := [("one-two-three", sampleCell)],
    metadata := .null, nbformat := 4, nbformat_minor := 4 }

/-- The cell object `toJS` emits for `sampleNotebook44`: no id field. -/
def sampleEmittedCell : OnDiskCell :=
  { cell_type := "code", id := none, source := .mstr "", metadata := .null,
    execution_count := some none, outputs := some [], attachments := none }

/-- The notebook object `toJS` emits for `sampleNotebook44`. -/
def sampleOut44 : OnDiskNotebookV4 :=
  { nbformat := 4, nbformat_minor := 4, metadata := .null,
    cells := [sampleEmittedCell] }

/-- An on-disk markdown cell whose attachment bundle holds a multi-fragment
multiline array whose rejoined text contains a newline. -/
def sampleMarkdownOnDiskCell : OnDiskCell :=
  { cell_type := "markdown", id := some "m", source := .mstr "", metadata := .null,
    execution_count := none, outputs := none,
    attachments := some [("foo.gif",
      .obj false [("image/gif", .arr false [.str "a\n", .str "b"])])] }

/-- An on-disk v4.5 notebook holding `sampleMarkdownOnDiskCell`. -/
def sampleMarkdownNotebook : OnDiskNotebookV4 :=
  { nbformat := 4, nbformat_minor := 5, metadata := .null,
    cells := [sampleMarkdownOnDiskCell] }

/-! ### Helper lemmas -/

mutual

theorem deeplyFrozen_deepFreeze : ∀ v : JSValue, deeplyFrozen (deepFreeze v) = true
  | .str _ => rfl
  | .num _ => rfl
  | .bool _ => rfl
  | .null => rfl
  | .arr _ l => by
      simp only [deepFreeze, deeplyFrozen, Bool.true_and]
      exact deeplyFrozenList_deepFreezeList l
  | .obj _ fs => by
      simp only [deepFreeze, deeplyFrozen, Bool.true_and]
      exact deeplyFrozenFields_deepFreezeFields fs

theorem deeplyFrozenList_deepFreezeList :
    ∀ l : List JSValue, deeplyFrozenList (deepFreezeList l) = true
  | [] => rfl
  | v :: vs => by
      have hv : deeplyFrozen (if v.isObjectLike then deepFreeze v else v) = true := by
        cases v <;> first | rfl | exact deeplyFrozen_deepFreeze _
      simp only [deepFreezeList, deeplyFrozenList, hv, Bool.true_and]
      exact deeplyFrozenList_deepFreezeList vs

theorem deeplyFrozenFields_deepFreezeFields :
    ∀ fs : List (String × JSValue), deeplyFrozenFields (deepFreezeFields fs) = true
  | [] => rfl
  | (k, v) :: kvs => by
      have hv : deeplyFrozen (if v.isObjectLike then deepFreeze v else v) = true := by
        cases v <;> first | rfl | exact deeplyFrozen_deepFreeze _
      simp only [deepFreezeFields, deeplyFrozenFields, hv, Bool.true_and]
      exact deeplyFrozenFields_deepFreezeFields kvs

end

mutual

theorem contentOf_deepFreeze : ∀ v : JSValue, contentOf (deepFreeze v) = contentOf v
  | .str _ => rfl
  | .num _ => rfl
  | .bool _ => rfl
  | .null => rfl
  | .arr _ l => by
      simp only [deepFreeze, contentOf]
      rw [contentOfList_deepFreezeList l]
  | .obj _ fs => by
      simp only [deepFreeze, contentOf]
      rw [contentOfFields_deepFreezeFields fs]

theorem contentOfList_deepFreezeList :
    ∀ l : List JSValue, contentOfList (deepFreezeList l) = contentOfList l
  | [] => rfl
  | v :: vs => by
      have hv : contentOf (if v.isObjectLike then deepFreeze v else v) = contentOf v := by
        cases v <;> first | rfl | exact contentOf_deepFreeze _
      simp only [deepFreezeList, contentOfList, hv]
      rw [contentOfList_deepFreezeList vs]

theorem contentOfFields_deepFreezeFields :
    ∀ fs : List (String × JSValue), contentOfFields (deepFreezeFields fs) = contentOfFields fs
  | [] => rfl
  | (k, v) :: kvs => by
      have hv : contentOf (if v.isObjectLike then deepFreeze v else v) = contentOf v := by
        cases v <;> first | rfl | exact contentOf_deepFreeze _
      simp only [deepFreezeFields, contentOfFields, hv]
      rw [contentOfFields_deepFreezeFields kvs]

end

theorem frozenEntryValue_deeplyFrozen (k : String) (v : JSValue) :
    deeplyFrozen (frozenEntryValue k v) = true := by
  unfold frozenEntryValue
  split
  · rfl
  · exact deeplyFrozen_deepFreeze v

theorem splitRML_dotrun : ∀ (cs gapRev runRev : List Char),
    (∀ c ∈ cs, isDotChar c = true) →
    splitRML gapRev runRev cs = [(runRev ++ gapRev).reverse ++ cs]
  | [], gapRev, runRev, _ => by simp [splitRML]
  | c :: rest, gapRev, runRev, h => by
      have hc : isDotChar c = true := h c (by simp)
      have hrest : ∀ x ∈ rest, isDotChar x = true := fun x hx => h x (by simp [hx])
      have hcr : c ≠ '\r' := by
        intro e
        rw [e] at hc
        simp [isDotChar] at hc
      rw [splitRML.eq_def]
      split
      · rename_i heq
        exact absurd heq (by simp)
      · rename_i rest2 heq
        injection heq with h1 h2
        rw [h1] at hc
        exact absurd hc (by decide)
      · rename_i c' rest' hno heq
        injection heq with h1 h2
        subst h1
        subst h2
        rw [if_pos hc, splitRML_dotrun rest gapRev (c :: runRev) hrest]
        simp

theorem matchPlusJson_iff (cs : List Char) :
    matchPlusJson cs = true ↔
      ∃ w, cs = w ++ '+' :: ['j', 's', 'o', 'n'] ∧ ∀ c ∈ w, isDotChar c = true := by
  induction cs with
  | nil =>
      constructor
      · intro h
        exact absurd h (by simp [matchPlusJson])
      · rintro ⟨w, hw, -⟩
        exact absurd hw (by simp)
  | cons c cs ih =>
      rw [matchPlusJson]
      simp only [Bool.or_eq_true, Bool.and_eq_true, beq_iff_eq]
      constructor
      · intro h
        rcases h with ⟨hc, hcs⟩ | ⟨hc, hm⟩
        · refine ⟨[], ?_, by simp⟩
          simp only [List.nil_append]
          rw [hc, hcs]
        · obtain ⟨w, hw, hall⟩ := ih.mp hm
          refine ⟨c :: w, by simp [hw], ?_⟩
          intro x hx
          rcases List.mem_cons.mp hx with rfl | hx
          · exact hc
          · exact hall x hx
      · rintro ⟨w, hw, hall⟩
        cases w with
        | nil =>
            simp only [List.nil_append, List.cons.injEq] at hw
            exact Or.inl ⟨hw.1, hw.2⟩
        | cons a w' =>
            simp only [List.cons_append, List.cons.injEq] at hw
            right
            refine ⟨by rw [hw.1]; exact hall a (by simp), ?_⟩
            exact ih.mpr ⟨w', hw.2, fun x hx => hall x (by simp [hx])⟩

theorem isJSONKey_iff (key : String) :
    isJSONKey key = true ↔
      ∃ w, key.data = "application/".data ++ w ++ '+' :: ['j', 's', 'o', 'n']
        ∧ ∀ c ∈ w, isDotChar c = true := by
  unfold isJSONKey
  rw [Bool.and_eq_true, List.isPrefixOf_iff_prefix]
  constructor
  · rintro ⟨⟨t, ht⟩, hm⟩
    have hd : List.drop 12 key.data = t := by
      rw [← ht]
      exact List.drop_left' (by rfl)
    rw [hd] at hm
    obtain ⟨w, hw, hall⟩ := (matchPlusJson_iff t).mp hm
    refine ⟨w, ?_, hall⟩
    rw [← ht, hw, List.append_assoc]
  · rintro ⟨w, hw, hall⟩
    refine ⟨⟨w ++ '+' :: ['j', 's', 'o', 'n'], ?_⟩, ?_⟩
    · rw [hw, List.append_assoc]
    · have hd : List.drop 12 key.data = w ++ '+' :: ['j', 's', 'o', 'n'] := by
        rw [hw, List.append_assoc]
        exact List.drop_left' (by rfl)
      rw [hd]
      exact (matchPlusJson_iff _).mpr ⟨w, rfl, hall⟩

theorem cellToJS_id_none (cell : ImmutableCell) (c : OnDiskCell)
    (h : cellToJS cell = .ok c) : c.id = none := by
  unfold cellToJS at h
  split_ifs at h
  · cases h; rfl
  · cases h; rfl
  · cases h; rfl

theorem buildCells_get? (gen : Nat → CellId) (minor : Nat) :
    ∀ (cs : List OnDiskCell) (start i : Nat),
      (buildCells gen minor start cs).get? i
        = (cs.get? i).map fun c => (chooseCellId minor c.id (gen (start + i)), cellFromJS c)
  | [], start, i => by simp [buildCells]
  | c :: cs, start, 0 => by simp [buildCells]
  | c :: cs, start, i + 1 => by
      have e : start + (i + 1) = (start + 1) + i := by omega
      rw [e]
      simpa [buildCells] using buildCells_get? gen minor cs (start + 1) i

theorem emitCells_id (nb : Notebook) (order : List CellId) :
    ∀ cs, emitCells nb order = .ok cs →
      ∀ c ∈ cs, (c.id).isSome = idVersionGate nb.nbformat nb.nbformat_minor := by
  induction order with
  | nil =>
      intro cs h c hc
      unfold emitCells at h
      injection h with h2
      subst h2
      exact absurd hc (List.not_mem_nil c)
  | cons cid rest ih =>
      intro cs h c hc
      unfold emitCells at h
      split at h
      · exact Except.noConfusion h
      · split at h
        · exact Except.noConfusion h
        · split at h
          · exact Except.noConfusion h
          · rename_i x1 cell heq1 x2 c0 hcj x3 cs0 he
            injection h with h2
            subst h2
            rcases List.mem_cons.mp hc with rfl | hmem
            · by_cases hg : idVersionGate nb.nbformat nb.nbformat_minor = true
              · simp [hg]
              · have hid := cellToJS_id_none cell c0 hcj
                simp only [Bool.not_eq_true] at hg
                simp [hg, hid]
            · exact ih cs0 he c hmem

/-! ### Claim theorems -/

/-- C1: the spec claims `demultiline(remultiline(s)) == s` for every string,
with `remultiline` splitting so that each fragment except possibly the last
ends with its original newline character.  The implemented separator regex
`(.+(:\r\n|\n))` has a capturing second group, and `split` splices each
capture into its result, duplicating every matched terminator: splitting
`"a\nb"` yields `["a\n", "\n", "b"]`, which rejoins to `"a\n\nb"`, not
`"a\nb"`.  This evaluates the embedded code at that failing input. -/
theorem remultiline_roundtrip_failure :
    remultiline (.mstr "a\nb") = ["a\n", "\n", "b"]
    ∧ demultiline (.marr (remultiline (.mstr "a\nb"))) = "a\n\nb"
    ∧ ("a\n\nb" : String) ≠ "a\nb" :=
  ⟨rfl, rfl, by decide⟩

/-- C2 counterexample: the claim says an unknown mimetype's value is stored
verbatim in both directions for every value shape, including a sequence of
strings.  For the unknown key `text/x-unknown` with the array value
`["a", "b"]`, `createFrozenMediaBundle` stores the joined string `"ab"`,
not the array. -/
theorem unknown_mimetype_not_verbatim :
    "text/x-unknown" ∉ knownMediaTypes
    ∧ (createFrozenMediaBundle
        [("text/x-unknown", JSValue.arr false [.str "a", .str "b"])]).entries
        = [("text/x-unknown", JSValue.str "ab")]
    ∧ JSValue.str "ab" ≠ JSValue.arr false [.str "a", .str "b"] :=
  ⟨by decide, rfl, fun h => nomatch h⟩

/-- C2 (amended): unknown mimetypes are never dropped, and their values are
handled by the same shape-directed rule as known keys.  Object-shaped values
pass through verbatim in both directions (up to freezing, which never changes
content); a string value passes verbatim into memory; an array value passes
verbatim to disk; keys matching the `application/*+json` regex pass verbatim
in both directions.  (The remaining direction applies the text codec:
arrays are joined by `demultiline` on read, strings re-split by `remultiline`
on write — so values are not verbatim in those cases.) -/
theorem unknown_mimetype_passthrough (mb : List (String × JSValue)) (key : String)
    (v : JSValue) (hunk : key ∉ knownMediaTypes) (hmem : (key, v) ∈ mb) :
    ((key, frozenEntryValue key v) ∈ (createFrozenMediaBundle mb).entries
      ∧ (key, onDiskEntryValue key v) ∈ (createOnDiskMediaBundle mb).entries)
    ∧ (v.isString = true → isJSONKey key = false → frozenEntryValue key v = v)
    ∧ (v.isArray = true → isJSONKey key = false → onDiskEntryValue key v = v)
    ∧ (v.isString = false → v.isArray = false →
        frozenEntryValue key v = deepFreeze v ∧ onDiskEntryValue key v = v)
    ∧ (isJSONKey key = true →
        frozenEntryValue key v = deepFreeze v ∧ onDiskEntryValue key v = v)
    ∧ contentOf (deepFreeze v) = contentOf v := by
  refine ⟨⟨List.mem_map.mpr ⟨(key, v), hmem, rfl⟩,
          List.mem_map.mpr ⟨(key, v), hmem, rfl⟩⟩, ?_, ?_, ?_, ?_,
          contentOf_deepFreeze v⟩
  · intro hs hk
    cases v <;> simp_all [frozenEntryValue, JSValue.isString, JSValue.isArray,
      asMultiLineString, demultiline]
  · intro ha hk
    cases v <;> simp_all [onDiskEntryValue, JSValue.isString, JSValue.isArray,
      remultilineValue]
  · intro hs ha
    constructor
    · simp [frozenEntryValue, hs, ha]
    · simp [onDiskEntryValue, hs, ha]
  · intro hk
    constructor
    · simp [frozenEntryValue, hk]
    · simp [onDiskEntryValue, hk]

theorem unknown_mimetype_passthrough_witness :
    (("text/x-custom", frozenEntryValue "text/x-custom" (.str "hi"))
        ∈ (createFrozenMediaBundle [("text/x-custom", JSValue.str "hi")]).entries
      ∧ ("text/x-custom", onDiskEntryValue "text/x-custom" (.str "hi"))
        ∈ (createOnDiskMediaBundle [("text/x-custom", JSValue.str "hi")]).entries)
    ∧ ((JSValue.str "hi").isString = true → isJSONKey "text/x-custom" = false →
        frozenEntryValue "text/x-custom" (.str "hi") = .str "hi")
    ∧ ((JSValue.str "hi").isArray = true → isJSONKey "text/x-custom" = false →
        onDiskEntryValue "text/x-custom" (.str "hi") = .str "hi")
    ∧ ((JSValue.str "hi").isString = false → (JSValue.str "hi").isArray = false →
        frozenEntryValue "text/x-custom" (.str "hi") = deepFreeze (.str "hi")
          ∧ onDiskEntryValue "text/x-custom" (.str "hi") = .str "hi")
    ∧ (isJSONKey "text/x-custom" = true →
        frozenEntryValue "text/x-custom" (.str "hi") = deepFreeze (.str "hi")
          ∧ onDiskEntryValue "text/x-custom" (.str "hi") = .str "hi")
    ∧ contentOf (deepFreeze (.str "hi")) = contentOf (.str "hi") :=
  unknown_mimetype_passthrough [("text/x-custom", .str "hi")] "text/x-custom"
    (.str "hi") (by decide) (List.mem_singleton.mpr rfl)

/-- C3 counterexample: the claim counts `application/json` among the
structured-JSON mimetypes, whose values must be stored as deep copies with no
`demultiline`.  But `isJSONKey` is `/^application\/(.*\+)json$/`, which does
not match `application/json` (no `+`), so its array value `["a", "b"]` is
demultilined to the string `"ab"`. -/
theorem application_json_demultilined :
    isJSONKey "application/json" = false
    ∧ (createFrozenMediaBundle
        [("application/json", JSValue.arr false [.str "a", .str "b"])]).entries
        = [("application/json", JSValue.str "ab")]
    ∧ JSValue.str "ab" ≠ JSValue.arr false [.str "a", .str "b"] :=
  ⟨by decide, rfl, fun h => nomatch h⟩

/-- C3 (amended): the structured-JSON keys of `createFrozenMediaBundle` are
exactly those matching `^application\/(.*\+)json$` — starting with
`application/` and ending with `+json`, with no line terminator between (so
neither `application/json` nor a non-`application` `+json` type qualifies).
For such a key the stored value is `deepFreeze(value)` with no `demultiline`;
for any other key whose value is a string or an array, the stored value is
`demultiline(value)`. -/
theorem frozen_bundle_structured_keys (mb : List (String × JSValue)) (key : String)
    (v : JSValue) (hmem : (key, v) ∈ mb) :
    (key, frozenEntryValue key v) ∈ (createFrozenMediaBundle mb).entries
    ∧ (isJSONKey key = true → frozenEntryValue key v = deepFreeze v)
    ∧ (isJSONKey key = false → (v.isString || v.isArray) = true →
        frozenEntryValue key v = .str (demultiline (asMultiLineString v)))
    ∧ (isJSONKey key = true ↔
        ∃ w, key.data = "application/".data ++ w ++ '+' :: ['j', 's', 'o', 'n']
          ∧ ∀ c ∈ w, isDotChar c = true)
    ∧ isJSONKey "application/json" = false := by
  refine ⟨List.mem_map.mpr ⟨(key, v), hmem, rfl⟩, ?_, ?_, isJSONKey_iff key, by decide⟩
  · intro hk
    simp [frozenEntryValue, hk]
  · intro hk hv
    simp [frozenEntryValue, hk, hv]

theorem frozen_bundle_structured_keys_witness :
    ("application/geo+json", frozenEntryValue "application/geo+json" (.obj false []))
        ∈ (createFrozenMediaBundle [("application/geo+json", JSValue.obj false [])]).entries
    ∧ (isJSONKey "application/geo+json" = true →
        frozenEntryValue "application/geo+json" (.obj false [])
          = deepFreeze (.obj false []))
    ∧ (isJSONKey "application/geo+json" = false →
        ((JSValue.obj false []).isString || (JSValue.obj false []).isArray) = true →
        frozenEntryValue "application/geo+json" (.obj false [])
          = .str (demultiline (asMultiLineString (.obj false []))))
    ∧ (isJSONKey "application/geo+json" = true ↔
        ∃ w, "application/geo+json".data
            = "application/".data ++ w ++ '+' :: ['j', 's', 'o', 'n']
          ∧ ∀ c ∈ w, isDotChar c = true)
    ∧ isJSONKey "application/json" = false :=
  frozen_bundle_structured_keys [("application/geo+json", .obj false [])]
    "application/geo+json" (.obj false []) (List.mem_singleton.mpr rfl)

/-- C4: on read, the converter reuses an on-disk cell's id in `cellOrder` and
`cellMap` exactly when `nbformat_minor >= 5` and the cell carries an `id`
field; in every other case it uses the freshly generated id.  The theorem
gives the id of the `i`-th cell in both structures and unfolds the rule in
both directions. -/
theorem fromJS_cell_id_rule (gen : Nat → CellId) (nb : OnDiskNotebookV4) (i : Nat)
    (c : OnDiskCell) (h : nb.cells.get? i = some c) :
    (fromJS gen nb).cellOrder.get? i
        = some (chooseCellId nb.nbformat_minor c.id (gen i))
    ∧ (fromJS gen nb).cellMap.get? i
        = some (chooseCellId nb.nbformat_minor c.id (gen i), cellFromJS c)
    ∧ (∀ cid, c.id = some cid → 5 ≤ nb.nbformat_minor →
        chooseCellId nb.nbformat_minor c.id (gen i) = cid)
    ∧ ((c.id = none ∨ nb.nbformat_minor < 5) →
        chooseCellId nb.nbformat_minor c.id (gen i) = gen i) := by
  have hmap : (fromJS gen nb).cellMap.get? i
      = some (chooseCellId nb.nbformat_minor c.id (gen i), cellFromJS c) := by
    show (buildCells gen nb.nbformat_minor 0 nb.cells).get? i = _
    rw [buildCells_get? gen nb.nbformat_minor nb.cells 0 i, h]
    simp
  refine ⟨?_, hmap, ?_, ?_⟩
  · show ((buildCells gen nb.nbformat_minor 0 nb.cells).map fun kc => kc.1).get? i = _
    rw [List.get?_map]
    show ((fromJS gen nb).cellMap.get? i).map _ = _
    rw [hmap]
    rfl
  · intro cid hcid hm
    simp [chooseCellId, hcid, hm]
  · rintro (hid | hlt)
    · simp [chooseCellId, hid]
    · cases hcid : c.id with
      | none => simp [chooseCellId]
      | some cid =>
          have hn : ¬ 5 ≤ nb.nbformat_minor := by omega
          simp [chooseCellId, hn]

theorem fromJS_cell_id_rule_witness :
    (fromJS sampleGen sampleNotebook45).cellOrder.get? 0 = some "test-cell-id"
    ∧ (fromJS sampleGen sampleNotebook45).cellMap.get? 0
        = some ("test-cell-id", cellFromJS sampleOnDiskCell)
    ∧ (∀ cid, sampleOnDiskCell.id = some cid → 5 ≤ sampleNotebook45.nbformat_minor →
        chooseCellId sampleNotebook45.nbformat_minor sampleOnDiskCell.id (sampleGen 0) = cid)
    ∧ ((sampleOnDiskCell.id = none ∨ sampleNotebook45.nbformat_minor < 5) →
        chooseCellId sampleNotebook45.nbformat_minor sampleOnDiskCell.id (sampleGen 0)
          = sampleGen 0) :=
  fromJS_cell_id_rule sampleGen sampleNotebook45 0 sampleOnDiskCell rfl

/-- C5: on write, an emitted cell object carries the `id` field exactly when
`(nbformat, nbformat_minor) >= (4, 5)` lexicographically; below the gate the
field is omitted from every emitted cell, regardless of the in-memory cell's
own id. -/
theorem toJS_id_version_gate (nb : Notebook) (out : OnDiskNotebookV4) (c : OnDiskCell)
    (h : toJS nb = .ok out) (hc : c ∈ out.cells) :
    (c.id).isSome = idVersionGate nb.nbformat nb.nbformat_minor
    ∧ (idVersionGate nb.nbformat nb.nbformat_minor = false → c.id = none) := by
  have hcells : emitCells nb nb.cellOrder = .ok out.cells := by
    unfold toJS at h
    split at h
    · exact Except.noConfusion h
    · rename_i cells he
      injection h with h2
      rw [he, ← h2]
  have h1 := emitCells_id nb nb.cellOrder out.cells hcells c hc
  refine ⟨h1, fun hg => ?_⟩
  rw [hg] at h1
  cases hid : c.id with
  | none => rfl
  | some x =>
      rw [hid] at h1
      exact absurd h1 (by simp)

theorem toJS_id_version_gate_witness :
    (sampleEmittedCell.id).isSome
        = idVersionGate sampleNotebook44.nbformat sampleNotebook44.nbformat_minor
    ∧ (idVersionGate sampleNotebook44.nbformat sampleNotebook44.nbformat_minor = false →
        sampleEmittedCell.id = none) :=
  toJS_id_version_gate sampleNotebook44 sampleOut44 sampleEmittedCell rfl
    (by simp [sampleOut44])

/-- C6: `outputToJS` copies a stream output's `text` field byte-for-byte —
for every name and every text, including the mixed-terminator test string —
and it never moves text into or out of the stream variant. -/
theorem outputToJS_stream_text_verbatim :
    (∀ sname text, outputToJS (.stream sname text) = .stream sname text)
    ∧ (∀ o : ImmutableOutput, (outputToJS o).streamText = o.streamText)
    ∧ (outputToJS (.stream "stdout" "line1\r\nline2\rline3\nline4\n\n\r\n\r\r\n")).streamText
        = some "line1\r\nline2\rline3\nline4\n\n\r\n\r\r\n" := by
  refine ⟨fun sname text => rfl, fun o => ?_, rfl⟩
  cases o <;> rfl

/-- C7: the cell converter fails with the unknown-cell-type error for every
`cell_type` tag outside the closed set code/markdown/raw; it never returns a
result for such a cell. -/
theorem cellToJS_unknown_cell_type (cell : ImmutableCell)
    (h1 : cell.cellType ≠ "code") (h2 : cell.cellType ≠ "markdown")
    (h3 : cell.cellType ≠ "raw") :
    cellToJS cell = .error "Cell type unknown at runtime" := by
  unfold cellToJS
  rw [if_neg h1, if_neg h2, if_neg h3]

theorem cellToJS_unknown_cell_type_witness :
    cellToJS { cellType := "not_real", id := none, source := "", metadata := .null,
               executionCount := none, outputs := [], attachments := none }
      = .error "Cell type unknown at runtime" :=
  cellToJS_unknown_cell_type
    { cellType := "not_real", id := none, source := "", metadata := .null,
      executionCount := none, outputs := [], attachments := none }
    (by decide) (by decide) (by decide)

/-- C8: the claim requires a markdown attachment read from a multi-fragment
array to be a single joined string in memory (which holds: `["a\n", "b"]`
becomes `"a\nb"`), and the fragments written back to re-join to that same
string.  The write path re-splits via the faulty `remultiline`, producing
`["a\n", "\n", "b"]`, which rejoins to `"a\n\nb"` — not the original string.
This evaluates both directions at that failing input. -/
theorem markdown_attachment_rejoin_failure :
    ((fromJS (fun _ => "gen-id") sampleMarkdownNotebook).cellMap.map
        fun kc => (kc.1, kc.2.attachments))
      = [("m", some [("foo.gif", JSValue.obj true [("image/gif", JSValue.str "a\nb")])])]
    ∧ ((cellToJS (cellFromJS sampleMarkdownOnDiskCell)).toOption.map fun c => c.attachments)
      = some (some [("foo.gif", JSValue.obj false [("image/gif",
          JSValue.arr false [.str "a\n", .str "\n", .str "b"])])])
    ∧ demultiline (.marr ["a\n", "\n", "b"]) = "a\n\nb"
    ∧ ("a\n\nb" : String) ≠ "a\nb" :=
  ⟨rfl, rfl, rfl, by decide⟩

/-- C9: the bundle returned by `createFrozenMediaBundle` is frozen at the top
level, and every value stored in it is deeply frozen (object-shaped values
have the frozen bit set at every nesting depth), so no value reachable from
the bundle is mutable. -/
theorem frozen_bundle_deeply_frozen (mb : List (String × JSValue)) (key : String)
    (v : JSValue) (hmem : (key, v) ∈ (createFrozenMediaBundle mb).entries) :
    (createFrozenMediaBundle mb).topFrozen = true ∧ deeplyFrozen v = true := by
  refine ⟨rfl, ?_⟩
  simp only [createFrozenMediaBundle, JSValue.entries] at hmem
  obtain ⟨⟨kin, vin⟩, hmem2, heq⟩ := List.mem_map.mp hmem
  cases heq
  exact frozenEntryValue_deeplyFrozen kin vin

theorem frozen_bundle_deeply_frozen_witness :
    (createFrozenMediaBundle [("application/geo+json",
        JSValue.obj false [("a", JSValue.arr false [.num 1])])]).topFrozen = true
    ∧ deeplyFrozen (JSValue.obj true [("a", JSValue.arr true [.num 1])]) = true :=
  frozen_bundle_deeply_frozen
    [("application/geo+json", JSValue.obj false [("a", JSValue.arr false [.num 1])])]
    "application/geo+json" (JSValue.obj true [("a", JSValue.arr true [.num 1])])
    (List.mem_singleton.mpr rfl)

/-- C10: `createOnDiskMediaBundle` emits every non-structured string value as
an array of line fragments (the `remultiline` output), never as a bare
string; a nonempty single-line string with no terminator becomes the
one-element array holding it. -/
theorem onDisk_strings_always_arrays (mb : List (String × JSValue)) (key : String)
    (s : String) (hmem : (key, JSValue.str s) ∈ mb) (hjk : isJSONKey key = false) :
    (key, JSValue.arr false ((remultilineStr s).map JSValue.str))
        ∈ (createOnDiskMediaBundle mb).entries
    ∧ (s ≠ "" → (∀ c ∈ s.data, isDotChar c = true) → remultilineStr s = [s]) := by
  constructor
  · show (key, JSValue.arr false ((remultilineStr s).map JSValue.str))
        ∈ (mb.map fun kv => (kv.1, onDiskEntryValue kv.1 kv.2))
    refine List.mem_map.mpr ⟨(key, JSValue.str s), hmem, ?_⟩
    simp [onDiskEntryValue, hjk, JSValue.isString, remultilineValue, remultiline,
      asMultiLineString]
  · intro hs hall
    have h := splitRML_dotrun s.data [] [] hall
    unfold remultilineStr
    rw [h]
    have hmk : String.mk s.data = s := rfl
    simp [List.filter, hmk, hs]

theorem onDisk_strings_always_arrays_witness :
    ("text/plain", JSValue.arr false ((remultilineStr "Hey").map JSValue.str))
        ∈ (createOnDiskMediaBundle [("text/plain", JSValue.str "Hey")]).entries
    ∧ ("Hey" ≠ "" → (∀ c ∈ "Hey".data, isDotChar c = true) →
        remultilineStr "Hey" = ["Hey"]) :=
  onDisk_strings_always_arrays [("text/plain", JSValue.str "Hey")] "text/plain" "Hey"
    (List.mem_singleton.mpr rfl) (by decide)
